import Mathlib

/-!
Shallow embedding of the per-room coordination engine of threatjam.com
(`src/api/room.ts`, the `Room` durable object).

JavaScript objects used as string-keyed maps (`connectedUsers`,
`settings`) are embedded as association lists `List (String × α)`:
property read is `lookupVal` (first binding wins; JS objects have unique
keys), property write is `setKey` (overwrite in place, else append —
matching JS insertion-order semantics), and object spread
`\x7b...s, ...p\x7d` is `mergeSettings` (fold of `setKey` over `p`
starting from `s`).  A possibly-`undefined` field is an `Option`.
Settings values are opaque to every operation; they are embedded as `Nat`.

Each handler of `Room` becomes a pure function from the durable-storage
content (`Option RoomData`, `none` = no record stored) and its request
arguments to the new storage content, the list of broadcasts it emits,
its response, and an event trace recording the order of gate
acquisition/release, storage accesses, broadcast emissions and registry
operations exactly as they occur in the source.
-/

namespace Room

/-- JS object property read: value of the first binding of `k`, if any. -/
def lookupVal {α : Type} : List (String × α) → String → Option α
  | [], _ => none
  | (k', v) :: rest, k => if k' = k then some v else lookupVal rest k

/-- Does the object have a property named `k`? -/
def hasKey {α : Type} (m : List (String × α)) (k : String) : Bool :=
  m.any (fun kv => decide (kv.1 = k))

/-- JS object property write: overwrite the binding of `k` in place if it
exists, else append a new binding at the end. -/
def setKey {α : Type} (m : List (String × α)) (k : String) (v : α) : List (String × α) :=
  if hasKey m k then m.map (fun kv => if kv.1 = k then (k, v) else kv)
  else m ++ [(k, v)]

/-- Settings values: opaque to the room code; embedded as `Nat`. -/
abbrev SettingsMap := List (String × Nat)

/-- JS object spread `\x7b...s, ...p\x7d`: assign each binding of `p`,
in order, onto a copy of `s`. -/
def mergeSettings (s p : SettingsMap) : SettingsMap :=
  p.foldl (fun acc kv => setKey acc kv.1 kv.2) s

/-- The `RoomData` record stored under the `roomData` storage key.
`connectedUsers` is `Option` because records written by an elder version
of the code may lack the field entirely (`undefined` in JS). -/
structure RoomData where
  key : String
  users : List String
  moderator : String
  connectedUsers : Option (List (String × Bool))
  settings : SettingsMap
deriving Repr, DecidableEq

/-- Reading `connectedUsers[u]` in a boolean position: an absent binding
is `undefined`, which is falsy. -/
def cuGet (m : List (String × Bool)) (u : String) : Bool :=
  match lookupVal m u with
  | some b => b
  | none => false

/-- Assignment `roomData.connectedUsers[u] = b` (only ever executed after the
reconciliation step has ensured the map is present). -/
def cuSet (r : RoomData) (u : String) (b : Bool) : RoomData :=
  { r with connectedUsers := some (setKey (r.connectedUsers.getD []) u b) }

/-- Assignment `roomData.moderator = c`. -/
def withModerator (r : RoomData) (c : String) : RoomData :=
  { r with moderator := c }

/-- The backfill loop: `connectedUsers = \x7b\x7d; for (user of users)
connectedUsers[user] = false`. -/
def backfill (users : List String) : List (String × Bool) :=
  users.foldl (fun acc u => setKey acc u false) []

/-- Guard `if (!roomData.connectedUsers) \x7b ...backfill... \x7d`: the map is
rebuilt only when the field is missing entirely; a present map is left
untouched. -/
def reconcile (r : RoomData) : RoomData :=
  match r.connectedUsers with
  | none => { r with connectedUsers := some (backfill r.users) }
  | some _ => r

/-- The record written by the constructor when storage is empty. -/
def emptyRoom : RoomData :=
  { key := "", users := [], moderator := "", connectedUsers := some [], settings := [] }

/-- The `Room` constructor body (instance activation): create an empty record
if none is stored, else apply the missing-map backfill. -/
def activateRoom (stored : Option RoomData) : RoomData :=
  match stored with
  | none => emptyRoom
  | some r => reconcile r

/-- One entry of `this.sessions`; `sid` stands for the identity of the
`WebSocket` object keying the JS `Map`. -/
structure SessionInfo where
  sid : Nat
  roomKey : String
  userName : String
deriving Repr, DecidableEq

/-- Broadcast messages, with the `roomData` snapshot they serialize. -/
inductive Broadcast where
  | userJoined (name : String) (roomData : RoomData)
  | userConnectionStatus (user : String) (isConnected : Bool) (roomData : RoomData)
  | newModerator (name : String) (roomData : RoomData)
  | settingsUpdated (settings : SettingsMap) (roomData : RoomData)
deriving Repr, DecidableEq

/-- Error responses of the request handlers. -/
inductive RoomError where
  | roomNotFound
  | roomAlreadyExists
  | forbidden
deriving Repr, DecidableEq

/-- Events recording execution order inside a handler. -/
inductive Ev where
  | gateEnter
  | gateExit
  | storageGet
  | storagePut
  | emit
  | registryAdd
  | registryRemove
  | sendDirect
deriving Repr, DecidableEq

/-- Outcome of a request-driven handler. -/
structure OpOut (ρ : Type) where
  stored : Option RoomData
  broadcasts : List Broadcast
  resp : Except RoomError ρ
  trace : List Ev
deriving Repr

/-- Outcome of a channel-driven handler that does not touch the registry. -/
structure ChanOut where
  stored : Option RoomData
  broadcasts : List Broadcast
  trace : List Ev
deriving Repr, DecidableEq

/-- Outcome of `handleSession` (channel open). -/
structure SessOut where
  sessions : List SessionInfo
  stored : Option RoomData
  broadcasts : List Broadcast
  firstSent : Option RoomData
  trace : List Ev
deriving Repr, DecidableEq

/-- Outcome of the `close` listener. -/
structure CloseOut where
  sessions : List SessionInfo
  stored : Option RoomData
  broadcasts : List Broadcast
  trace : List Ev
deriving Repr, DecidableEq

/-- POST `/initialize`: fail with `RoomAlreadyExists` when a record with a
non-empty (truthy) `key` is already stored; otherwise write the fresh
record (also when no record is stored at all, per the TODO fallthrough). -/
def createRoom (stored : Option RoomData) (roomKey moderator : String) : OpOut RoomData :=
  let fresh : RoomData :=
    { key := roomKey, users := [moderator], moderator := moderator,
      connectedUsers := some [(moderator, true)], settings := [] }
  match stored with
  | some r =>
      if r.key ≠ "" then
        { stored := some r, broadcasts := [],
          resp := Except.error RoomError.roomAlreadyExists,
          trace := [Ev.gateEnter, Ev.storageGet, Ev.gateExit] }
      else
        { stored := some fresh, broadcasts := [], resp := Except.ok fresh,
          trace := [Ev.gateEnter, Ev.storageGet, Ev.storagePut, Ev.gateExit] }
  | none =>
      { stored := some fresh, broadcasts := [], resp := Except.ok fresh,
        trace := [Ev.gateEnter, Ev.storageGet, Ev.storagePut, Ev.gateExit] }

/-- POST `/join`: 404 when no record or falsy `key`; else reconcile, append
`name` to `users` if absent, mark connected, persist, broadcast
`userJoined` (still inside the gate callback). -/
def joinRoom (stored : Option RoomData) (name : String) : OpOut RoomData :=
  match stored with
  | none =>
      { stored := none, broadcasts := [],
        resp := Except.error RoomError.roomNotFound,
        trace := [Ev.gateEnter, Ev.storageGet, Ev.gateExit] }
  | some r =>
      if r.key = "" then
        { stored := some r, broadcasts := [],
          resp := Except.error RoomError.roomNotFound,
          trace := [Ev.gateEnter, Ev.storageGet, Ev.gateExit] }
      else
        let r1 := reconcile r
        let r2 := if name ∈ r1.users then r1 else { r1 with users := r1.users ++ [name] }
        let r3 := cuSet r2 name true
        { stored := some r3, broadcasts := [Broadcast.userJoined name r3],
          resp := Except.ok r3,
          trace := [Ev.gateEnter, Ev.storageGet, Ev.storagePut, Ev.emit, Ev.gateExit] }

/-- GET `/settings`: read-only; 404 when no record or falsy `key`. -/
def settingsGet (stored : Option RoomData) : OpOut SettingsMap :=
  match stored with
  | none =>
      { stored := none, broadcasts := [],
        resp := Except.error RoomError.roomNotFound,
        trace := [Ev.gateEnter, Ev.storageGet, Ev.gateExit] }
  | some r =>
      if r.key = "" then
        { stored := some r, broadcasts := [],
          resp := Except.error RoomError.roomNotFound,
          trace := [Ev.gateEnter, Ev.storageGet, Ev.gateExit] }
      else
        { stored := some r, broadcasts := [], resp := Except.ok r.settings,
          trace := [Ev.gateEnter, Ev.storageGet, Ev.gateExit] }

/-- PUT `/settings`: 404 when no record or falsy `key`; 403 when the
requester is not the moderator; else shallow-merge, persist, broadcast
`settingsUpdated` (inside the gate callback). -/
def settingsPut (stored : Option RoomData) (name : String) (settings : SettingsMap) :
    OpOut SettingsMap :=
  match stored with
  | none =>
      { stored := none, broadcasts := [],
        resp := Except.error RoomError.roomNotFound,
        trace := [Ev.gateEnter, Ev.storageGet, Ev.gateExit] }
  | some r =>
      if r.key = "" then
        { stored := some r, broadcasts := [],
          resp := Except.error RoomError.roomNotFound,
          trace := [Ev.gateEnter, Ev.storageGet, Ev.gateExit] }
      else if r.moderator ≠ name then
        { stored := some r, broadcasts := [],
          resp := Except.error RoomError.forbidden,
          trace := [Ev.gateEnter, Ev.storageGet, Ev.gateExit] }
      else
        let r2 := { r with settings := mergeSettings r.settings settings }
        { stored := some r2,
          broadcasts := [Broadcast.settingsUpdated r2.settings r2],
          resp := Except.ok r2.settings,
          trace := [Ev.gateEnter, Ev.storageGet, Ev.storagePut, Ev.emit, Ev.gateExit] }

/-- The gate callback of `handleSession`: only runs its body when a record
is stored (no `key` check at all); reconcile, append the user if absent,
mark connected, persist, broadcast `userConnectionStatus(true)`. -/
def connectGate (stored : Option RoomData) (userName : String) :
    Option RoomData × List Broadcast × List Ev :=
  match stored with
  | none => (none, [], [Ev.gateEnter, Ev.storageGet, Ev.gateExit])
  | some r =>
      let r1 := reconcile r
      let r2 := if userName ∈ r1.users then r1 else { r1 with users := r1.users ++ [userName] }
      let r3 := cuSet r2 userName true
      (some r3, [Broadcast.userConnectionStatus userName true r3],
        [Ev.gateEnter, Ev.storageGet, Ev.storagePut, Ev.emit, Ev.gateExit])

/-- Whole of `handleSession`: register the session first, run the gate section, then
(after the gate released) read storage again and send the full record
directly to the new channel as the `initialize` message (`firstSent`). -/
def handleSession (sessions : List SessionInfo) (stored : Option RoomData)
    (sid : Nat) (roomKey userName : String) : SessOut :=
  let sessions' := sessions ++ [⟨sid, roomKey, userName⟩]
  let g := connectGate stored userName
  { sessions := sessions', stored := g.1, broadcasts := g.2.1,
    firstSent := g.1,
    trace := [Ev.registryAdd] ++ g.2.2 ++ [Ev.storageGet, Ev.sendDirect] }

/-- Deletion `this.sessions.delete(webSocket)`.  `sid` is the identity of the
closing socket, so exactly its entry is removed. -/
def removeSession (sessions : List SessionInfo) (sid : Nat) : List SessionInfo :=
  sessions.filter (fun s => decide (s.sid ≠ sid))

/-- Check `Array.from(this.sessions.values()).some(s => s.userName === userName)`. -/
def stillConnected (sessions : List SessionInfo) (userName : String) : Bool :=
  sessions.any (fun s => decide (s.userName = userName))

/-- The gate callback of the `close` listener: mark the user disconnected,
persist, broadcast `userConnectionStatus(false)` (snapshot serialized
before any moderator change); then, if the departing user is the
moderator and some user in `users` order is still connected, promote the
first such user, persist again and broadcast `newModerator`. -/
def closeGate (stored : Option RoomData) (userName : String) :
    Option RoomData × List Broadcast × List Ev :=
  match stored with
  | none => (none, [], [Ev.gateEnter, Ev.storageGet, Ev.gateExit])
  | some r =>
      let r1 := reconcile r
      let r2 := cuSet r1 userName false
      let bc1 := Broadcast.userConnectionStatus userName false r2
      if userName = r2.moderator then
        match r2.users.filter (fun u => cuGet (r2.connectedUsers.getD []) u) with
        | [] =>
            (some r2, [bc1],
              [Ev.gateEnter, Ev.storageGet, Ev.storagePut, Ev.emit, Ev.gateExit])
        | c :: _ =>
            let r3 := { r2 with moderator := c }
            (some r3, [bc1, Broadcast.newModerator c r3],
              [Ev.gateEnter, Ev.storageGet, Ev.storagePut, Ev.emit,
               Ev.storagePut, Ev.emit, Ev.gateExit])
      else
        (some r2, [bc1],
          [Ev.gateEnter, Ev.storageGet, Ev.storagePut, Ev.emit, Ev.gateExit])

/-- The `close` listener: deregister the session; if another session for
the same `userName` remains, do nothing further; otherwise run the gate
section above. -/
def handleClose (sessions : List SessionInfo) (stored : Option RoomData)
    (sid : Nat) (userName : String) : CloseOut :=
  let sessions' := removeSession sessions sid
  if stillConnected sessions' userName then
    { sessions := sessions', stored := stored, broadcasts := [],
      trace := [Ev.registryRemove] }
  else
    let g := closeGate stored userName
    { sessions := sessions', stored := g.1, broadcasts := g.2.1,
      trace := [Ev.registryRemove] ++ g.2.2 }

/-- Handler `handleUpdateSettings` (channel-driven): return silently when no record
is stored or the sender is not the moderator; else shallow-merge, persist,
broadcast `settingsUpdated` (inside the gate callback). -/
def handleUpdateSettings (stored : Option RoomData) (userName : String)
    (settings : SettingsMap) : ChanOut :=
  match stored with
  | none =>
      { stored := none, broadcasts := [],
        trace := [Ev.gateEnter, Ev.storageGet, Ev.gateExit] }
  | some r =>
      if r.moderator ≠ userName then
        { stored := some r, broadcasts := [],
          trace := [Ev.gateEnter, Ev.storageGet, Ev.gateExit] }
      else
        let r2 := { r with settings := mergeSettings r.settings settings }
        { stored := some r2,
          broadcasts := [Broadcast.settingsUpdated r2.settings r2],
          trace := [Ev.gateEnter, Ev.storageGet, Ev.storagePut, Ev.emit, Ev.gateExit] }

/-- One `session.webSocket.send(json)` call: `ok sid` says whether the
channel accepts the send or throws. -/
def sendResult (ok : Nat → Bool) (sid : Nat) : Except String Unit :=
  if ok sid then Except.ok () else Except.error "WebSocket is closed"

/-- One iteration of the broadcast loop: `try \x7b send \x7d catch
\x7b ignore \x7d` — a failed send leaves the loop state untouched. -/
def trySend (ok : Nat → Bool) (delivered : List Nat) (s : SessionInfo) : List Nat :=
  match sendResult ok s.sid with
  | Except.ok _ => delivered ++ [s.sid]
  | Except.error _ => delivered

/-- Method `broadcast`: loop over registered sessions, try to send to each, and
swallow any per-session error; returns the `sid`s actually delivered to.
The return type is total — no error can reach the caller. -/
def broadcastRun (sessions : List SessionInfo) (ok : Nat → Bool) : List Nat :=
  sessions.foldl (trySend ok) []

/-- The `users` list of a storage state (empty when nothing is stored). -/
def usersOf : Option RoomData → List String
  | some r => r.users
  | none => []

/-- The `settings` map of a storage state. -/
def settingsOf : Option RoomData → SettingsMap
  | some r => r.settings
  | none => []

/-- Is this broadcast a `userConnectionStatus` message? -/
def isUCS : Broadcast → Bool
  | Broadcast.userConnectionStatus _ _ _ => true
  | _ => false

/-- Events that occur strictly before the first gate release. -/
def beforeRelease (t : List Ev) : List Ev :=
  t.takeWhile (fun e => e != Ev.gateExit)

/-- The spec's ordering property: no broadcast is emitted before the gate
has released. -/
def emitOnlyAfterRelease (t : List Ev) : Bool :=
  (beforeRelease t).all (fun e => e != Ev.emit)

/-- The events between gate acquisition and the matching release. -/
def gateSection (t : List Ev) : List Ev :=
  ((t.dropWhile (fun e => e != Ev.gateEnter)).drop 1).takeWhile (fun e => e != Ev.gateExit)

/-- Every broadcast emission of the trace lies inside the gate section. -/
def emitsInsideGate (t : List Ev) : Bool :=
  t.count Ev.emit == (gateSection t).count Ev.emit

/-! ### Association-list lemmas -/

theorem hasKey_cons {α : Type} (kv : String × α) (rest : List (String × α)) (k : String) :
    hasKey (kv :: rest) k = (decide (kv.1 = k) || hasKey rest k) := by
  simp [hasKey]

theorem lookupVal_eq_none_of_hasKey_false {α : Type} (m : List (String × α)) (k : String)
    (h : hasKey m k = false) : lookupVal m k = none := by
  induction m with
  | nil => rfl
  | cons kv rest ih =>
    rw [hasKey_cons] at h
    rcases Bool.or_eq_false_iff.mp h with ⟨h1, h2⟩
    have hne : kv.1 ≠ k := by simpa using h1
    simp [lookupVal, hne, ih h2]

theorem hasKey_eq_false_of_not_mem_keys {α : Type} (m : List (String × α)) (k : String)
    (h : k ∉ m.map Prod.fst) : hasKey m k = false := by
  induction m with
  | nil => rfl
  | cons kv rest ih =>
    simp only [List.map_cons, List.mem_cons] at h
    push_neg at h
    rw [hasKey_cons, Bool.or_eq_false_iff]
    exact ⟨by simpa using (Ne.symm h.1), ih h.2⟩

theorem lookupVal_map_overwrite {α : Type} (m : List (String × α)) (k : String) (v : α) :
    lookupVal (m.map (fun kv => if kv.1 = k then (k, v) else kv)) k =
      if hasKey m k then some v else none := by
  induction m with
  | nil => rfl
  | cons kv rest ih =>
    simp only [List.map_cons]
    by_cases h : kv.1 = k
    · rw [if_pos h]
      simp [lookupVal, hasKey_cons, h]
    · rw [if_neg h]
      simp [lookupVal, hasKey_cons, h, ih]

theorem lookupVal_map_other {α : Type} (m : List (String × α)) (k k' : String) (v : α)
    (h : k' ≠ k) :
    lookupVal (m.map (fun kv => if kv.1 = k then (k, v) else kv)) k' = lookupVal m k' := by
  induction m with
  | nil => rfl
  | cons kv rest ih =>
    simp only [List.map_cons]
    by_cases hk : kv.1 = k
    · rw [if_pos hk]
      have hkk : ¬(k = k') := fun hh => h hh.symm
      have hkv : ¬(kv.1 = k') := by rw [hk]; exact hkk
      simp [lookupVal, hkk, hkv, ih]
    · rw [if_neg hk]
      by_cases hk' : kv.1 = k'
      · simp [lookupVal, hk']
      · simp [lookupVal, hk', ih]

theorem lookupVal_append_left_none {α : Type} (m l : List (String × α)) (k : String)
    (h : hasKey m k = false) : lookupVal (m ++ l) k = lookupVal l k := by
  induction m with
  | nil => rfl
  | cons kv rest ih =>
    rw [hasKey_cons] at h
    rcases Bool.or_eq_false_iff.mp h with ⟨h1, h2⟩
    have hne : kv.1 ≠ k := by simpa using h1
    simp [lookupVal, hne, ih h2]

theorem lookupVal_setKey_self {α : Type} (m : List (String × α)) (k : String) (v : α) :
    lookupVal (setKey m k v) k = some v := by
  unfold setKey
  by_cases h : hasKey m k = true
  · rw [if_pos h, lookupVal_map_overwrite, if_pos h]
  · have h' : hasKey m k = false := by simpa using h
    rw [if_neg h, lookupVal_append_left_none _ _ _ h']
    simp [lookupVal]

theorem lookupVal_append_single_other {α : Type} (m : List (String × α)) (k k' : String)
    (v : α) (h : k' ≠ k) : lookupVal (m ++ [(k, v)]) k' = lookupVal m k' := by
  induction m with
  | nil =>
    have hkk : ¬(k = k') := fun hh => h hh.symm
    simp [lookupVal, hkk]
  | cons kv rest ih =>
    by_cases hk' : kv.1 = k'
    · simp [lookupVal, hk']
    · simp [lookupVal, hk', ih]

theorem lookupVal_setKey_other {α : Type} (m : List (String × α)) (k k' : String) (v : α)
    (h : k' ≠ k) : lookupVal (setKey m k v) k' = lookupVal m k' := by
  unfold setKey
  by_cases hk : hasKey m k = true
  · rw [if_pos hk]
    exact lookupVal_map_other m k k' v h
  · rw [if_neg hk]
    exact lookupVal_append_single_other m k k' v h

theorem lookupVal_eq_none_of_not_mem_keys {α : Type} (m : List (String × α)) (k : String)
    (h : k ∉ m.map Prod.fst) : lookupVal m k = none :=
  lookupVal_eq_none_of_hasKey_false m k (hasKey_eq_false_of_not_mem_keys m k h)

/-- A key absent from the update object keeps its prior value under the
spread merge. -/
theorem lookupVal_mergeSettings_of_none (s p : SettingsMap) (k : String)
    (h : lookupVal p k = none) :
    lookupVal (mergeSettings s p) k = lookupVal s k := by
  induction p generalizing s with
  | nil => rfl
  | cons kv rest ih =>
    obtain ⟨k0, v0⟩ := kv
    have hk0 : ¬(k0 = k) := by
      intro hh
      simp [lookupVal, hh] at h
    have hrest : lookupVal rest k = none := by
      simpa [lookupVal, hk0] using h
    have hstep : mergeSettings s ((k0, v0) :: rest) = mergeSettings (setKey s k0 v0) rest := rfl
    rw [hstep, ih _ hrest, lookupVal_setKey_other s k0 k v0 (fun hh => hk0 hh.symm)]

/-- A key present in the update object takes the update's value under the
spread merge (update objects have unique keys, as JS objects do). -/
theorem lookupVal_mergeSettings_of_some (s p : SettingsMap) (k : String) (v : Nat)
    (hnd : (p.map Prod.fst).Nodup) (h : lookupVal p k = some v) :
    lookupVal (mergeSettings s p) k = some v := by
  induction p generalizing s with
  | nil => simp [lookupVal] at h
  | cons kv rest ih =>
    obtain ⟨k0, v0⟩ := kv
    simp only [List.map_cons, List.nodup_cons] at hnd
    obtain ⟨hk0, hrest⟩ := hnd
    have hstep : mergeSettings s ((k0, v0) :: rest) = mergeSettings (setKey s k0 v0) rest := rfl
    rw [hstep]
    by_cases hk : k0 = k
    · subst hk
      have hv : v0 = v := by simpa [lookupVal] using h
      subst hv
      have hnone : lookupVal rest k0 = none := lookupVal_eq_none_of_not_mem_keys rest k0 hk0
      rw [lookupVal_mergeSettings_of_none _ _ _ hnone]
      exact lookupVal_setKey_self s k0 v0
    · have h' : lookupVal rest k = some v := by simpa [lookupVal, hk] using h
      exact ih _ hrest h'

/-! ### Backfill lemmas -/

theorem lookupVal_foldl_setFalse_acc (l : List String) (acc : List (String × Bool))
    (u : String) (h : lookupVal acc u = some false) :
    lookupVal (l.foldl (fun a x => setKey a x false) acc) u = some false := by
  induction l generalizing acc with
  | nil => exact h
  | cons x rest ih =>
    apply ih
    by_cases hx : x = u
    · subst hx
      exact lookupVal_setKey_self acc x false
    · rw [lookupVal_setKey_other acc x u false (fun hh => hx hh.symm)]
      exact h

theorem lookupVal_foldl_setFalse_mem (l : List String) (acc : List (String × Bool))
    (u : String) (h : u ∈ l) :
    lookupVal (l.foldl (fun a x => setKey a x false) acc) u = some false := by
  induction l generalizing acc with
  | nil => cases h
  | cons x rest ih =>
    rcases List.mem_cons.mp h with h1 | h2
    · subst h1
      exact lookupVal_foldl_setFalse_acc rest _ u (lookupVal_setKey_self acc u false)
    · exact ih _ h2

theorem lookupVal_backfill (l : List String) (u : String) (h : u ∈ l) :
    lookupVal (backfill l) u = some false :=
  lookupVal_foldl_setFalse_mem l [] u h

/-! ### Filter, find? and registry lemmas -/

theorem find?_eq_filterHead {α : Type} (l : List α) (p : α → Bool) :
    l.find? p = (l.filter p).head? := by
  induction l with
  | nil => rfl
  | cons x t ih =>
    by_cases h : p x = true
    · rw [List.find?_cons_of_pos _ h, List.filter_cons_of_pos h]
      rfl
    · rw [List.find?_cons_of_neg _ h, List.filter_cons_of_neg h]
      exact ih

theorem mem_removeSession (sessions : List SessionInfo) (sid : Nat) (s : SessionInfo) :
    s ∈ removeSession sessions sid ↔ s ∈ sessions ∧ s.sid ≠ sid := by
  simp [removeSession, List.mem_filter]

theorem stillConnected_of_mem (sessions : List SessionInfo) (u : String) (s : SessionInfo)
    (hs : s ∈ sessions) (hu : s.userName = u) : stillConnected sessions u = true := by
  simp only [stillConnected, List.any_eq_true]
  exact ⟨s, hs, by simpa using hu⟩

theorem stillConnected_eq_false_iff (sessions : List SessionInfo) (u : String) :
    stillConnected sessions u = false ↔ ∀ s ∈ sessions, s.userName ≠ u := by
  simp [stillConnected, List.any_eq_false]

/-! ### Projection lemmas for `reconcile` and `cuSet` -/

theorem reconcile_users (r : RoomData) : (reconcile r).users = r.users := by
  cases h : r.connectedUsers <;> simp [reconcile, h]

theorem reconcile_moderator (r : RoomData) : (reconcile r).moderator = r.moderator := by
  cases h : r.connectedUsers <;> simp [reconcile, h]

theorem reconcile_key (r : RoomData) : (reconcile r).key = r.key := by
  cases h : r.connectedUsers <;> simp [reconcile, h]

theorem reconcile_settings (r : RoomData) : (reconcile r).settings = r.settings := by
  cases h : r.connectedUsers <;> simp [reconcile, h]

theorem cuSet_users (r : RoomData) (u : String) (b : Bool) : (cuSet r u b).users = r.users :=
  rfl

theorem cuSet_moderator (r : RoomData) (u : String) (b : Bool) :
    (cuSet r u b).moderator = r.moderator := rfl

theorem cuGet_cuSet_self (r : RoomData) (u : String) (b : Bool) :
    cuGet (((cuSet r u b).connectedUsers).getD []) u = b := by
  simp [cuSet, cuGet, lookupVal_setKey_self]

theorem lookupVal_cuSet_self (r : RoomData) (u : String) (b : Bool) :
    lookupVal (((cuSet r u b).connectedUsers).getD []) u = some b := by
  simp [cuSet, lookupVal_setKey_self]

theorem broadcastRun_foldl_char (l : List SessionInfo) (ok : Nat → Bool) (acc : List Nat) :
    l.foldl (trySend ok) acc
      = acc ++ (l.filter (fun s => ok s.sid)).map (fun s => s.sid) := by
  induction l generalizing acc with
  | nil => simp
  | cons s t ih =>
    rw [List.foldl_cons]
    by_cases h : ok s.sid = true
    · have hstep : trySend ok acc s = acc ++ [s.sid] := by simp [trySend, sendResult, h]
      rw [hstep, ih]
      simp [List.filter_cons, h]
    · have h' : ok s.sid = false := by simpa using h
      have hstep : trySend ok acc s = acc := by simp [trySend, sendResult, h']
      rw [hstep, ih]
      simp [List.filter_cons, h']

/-- Shape of the `close` gate section on a stored record: the resulting
record keeps `users` and carries the `connectedUsers` map with the
departing user set to `false`; exactly one `userConnectionStatus`
broadcast (the disconnect one) is emitted; the record is persisted. -/
theorem closeGate_char (r : RoomData) (U : String) :
    ∃ m, (closeGate (some r) U).1 = some m ∧
      m.connectedUsers = (cuSet (reconcile r) U false).connectedUsers ∧
      m.users = r.users ∧
      (closeGate (some r) U).2.1.filter isUCS
        = [Broadcast.userConnectionStatus U false (cuSet (reconcile r) U false)] ∧
      Ev.storagePut ∈ (closeGate (some r) U).2.2 := by
  have husers : (cuSet (reconcile r) U false).users = r.users := by
    rw [cuSet_users, reconcile_users]
  simp only [closeGate]
  by_cases hm : U = (cuSet (reconcile r) U false).moderator
  · rw [if_pos hm]
    cases hf : (cuSet (reconcile r) U false).users.filter
        (fun u => cuGet (((cuSet (reconcile r) U false).connectedUsers).getD []) u) with
    | nil =>
      exact ⟨_, rfl, rfl, husers, rfl, by
        show Ev.storagePut ∈ [Ev.gateEnter, Ev.storageGet, Ev.storagePut, Ev.emit, Ev.gateExit]
        decide⟩
    | cons c t =>
      exact ⟨_, rfl, rfl, husers, rfl, by
        show Ev.storagePut ∈ [Ev.gateEnter, Ev.storageGet, Ev.storagePut, Ev.emit,
          Ev.storagePut, Ev.emit, Ev.gateExit]
        decide⟩
  · rw [if_neg hm]
    exact ⟨_, rfl, rfl, husers, rfl, by
      show Ev.storagePut ∈ [Ev.gateEnter, Ev.storageGet, Ev.storagePut, Ev.emit, Ev.gateExit]
      decide⟩

/-! ### Claim theorems -/

/-- C2: when the stored record has a non-empty `key`, `/initialize` fails
with `RoomAlreadyExists` and leaves the record exactly as it was, persisting
nothing; in particular a second create after a successful one (non-empty
room key, previously uninitialized storage) errors while storage still
holds the first call's record. -/
theorem claim2_create_guard (r : RoomData) (roomKey moderator : String)
    (hk : r.key ≠ "") :
    (createRoom (some r) roomKey moderator).resp
        = Except.error RoomError.roomAlreadyExists ∧
    (createRoom (some r) roomKey moderator).stored = some r ∧
    (createRoom (some r) roomKey moderator).broadcasts = [] ∧
    Ev.storagePut ∉ (createRoom (some r) roomKey moderator).trace ∧
    (∀ stored0 roomKey' moderator',
      (stored0 = none ∨ ∃ r0, stored0 = some r0 ∧ r0.key = "") → roomKey ≠ "" →
      ∃ f, (createRoom stored0 roomKey moderator).resp = Except.ok f ∧
        (createRoom stored0 roomKey moderator).stored = some f ∧
        (createRoom (createRoom stored0 roomKey moderator).stored roomKey' moderator').resp
          = Except.error RoomError.roomAlreadyExists ∧
        (createRoom (createRoom stored0 roomKey moderator).stored roomKey' moderator').stored
          = some f) := by
  refine ⟨by simp [createRoom, hk], by simp [createRoom, hk], by simp [createRoom, hk],
    by simp [createRoom, hk], ?_⟩
  intro stored0 roomKey' moderator' h0 hrk
  rcases h0 with h0 | ⟨r0, h0, hr0⟩
  · subst h0
    simp only [createRoom]
    exact ⟨_, rfl, rfl, by simp [createRoom, hrk], by simp [createRoom, hrk]⟩
  · subst h0
    simp only [createRoom, hr0, ne_eq, not_true_eq_false, if_false]
    exact ⟨_, rfl, rfl, by simp [createRoom, hrk], by simp [createRoom, hrk]⟩

/-- Witness for C2 at a concrete already-created record. -/
theorem claim2_create_guard_witness :
    (createRoom (some (RoomData.mk "k1" ["A"] "A" (some [("A", true)]) [])) "k2" "B").resp
      = Except.error RoomError.roomAlreadyExists ∧
    (createRoom (some (RoomData.mk "k1" ["A"] "A" (some [("A", true)]) [])) "k2" "B").stored
      = some (RoomData.mk "k1" ["A"] "A" (some [("A", true)]) []) :=
  ⟨(claim2_create_guard _ "k2" "B" (by decide)).1,
   (claim2_create_guard _ "k2" "B" (by decide)).2.1⟩

/-- C6: a channel-driven `updateSettings` from a non-moderator is silently
dropped (record unchanged, no broadcast, nothing persisted, and the handler
has no error reply at all), while the request-driven PUT `/settings` from a
non-moderator on an initialized room returns `Forbidden` with the record
unchanged and no broadcast. -/
theorem claim6_nonmoderator_settings (r : RoomData) (userName : String) (p : SettingsMap)
    (hmod : userName ≠ r.moderator) :
    (handleUpdateSettings (some r) userName p).stored = some r ∧
    (handleUpdateSettings (some r) userName p).broadcasts = [] ∧
    Ev.storagePut ∉ (handleUpdateSettings (some r) userName p).trace ∧
    (r.key ≠ "" →
      (settingsPut (some r) userName p).resp = Except.error RoomError.forbidden ∧
      (settingsPut (some r) userName p).stored = some r ∧
      (settingsPut (some r) userName p).broadcasts = []) := by
  have hm : r.moderator ≠ userName := fun hh => hmod hh.symm
  refine ⟨by simp [handleUpdateSettings, hm], by simp [handleUpdateSettings, hm],
    by simp [handleUpdateSettings, hm], ?_⟩
  intro hk
  exact ⟨by simp [settingsPut, hk, hm], by simp [settingsPut, hk, hm],
    by simp [settingsPut, hk, hm]⟩

/-- Witness for C6: non-moderator "B" in a room moderated by "A". -/
theorem claim6_nonmoderator_settings_witness :
    (handleUpdateSettings
        (some (RoomData.mk "k" ["A", "B"] "A" (some [("A", true), ("B", true)]) [("x", 1)]))
        "B" [("x", 2)]).stored
      = some (RoomData.mk "k" ["A", "B"] "A" (some [("A", true), ("B", true)]) [("x", 1)]) ∧
    (settingsPut
        (some (RoomData.mk "k" ["A", "B"] "A" (some [("A", true), ("B", true)]) [("x", 1)]))
        "B" [("x", 2)]).resp
      = Except.error RoomError.forbidden :=
  ⟨(claim6_nonmoderator_settings _ "B" [("x", 2)] (by decide)).1,
   ((claim6_nonmoderator_settings _ "B" [("x", 2)] (by decide)).2.2.2 (by decide)).1⟩

/-- C8: `broadcast` delivers to exactly the sessions whose channel send
succeeds — a failing channel is caught individually and never prevents
delivery to any other registered session, and the function is total, so no
error reaches the operation that triggered the broadcast. -/
theorem claim8_broadcast_isolation (sessions : List SessionInfo) (ok : Nat → Bool) :
    broadcastRun sessions ok
        = (sessions.filter (fun s => ok s.sid)).map (fun s => s.sid) ∧
    (∀ s, s ∈ sessions → ok s.sid = true → s.sid ∈ broadcastRun sessions ok) := by
  have hchar : broadcastRun sessions ok
      = (sessions.filter (fun s => ok s.sid)).map (fun s => s.sid) := by
    simpa [broadcastRun] using broadcastRun_foldl_char sessions ok []
  refine ⟨hchar, ?_⟩
  intro s hs hok
  rw [hchar]
  exact List.mem_map.mpr ⟨s, List.mem_filter.mpr ⟨hs, hok⟩, rfl⟩

/-- Witness for C8: session 2's channel is broken; sessions 1 and 3 are
still delivered to. -/
theorem claim8_broadcast_isolation_witness :
    (1 : Nat) ∈ broadcastRun [⟨1, "k", "A"⟩, ⟨2, "k", "B"⟩, ⟨3, "k", "C"⟩]
        (fun sid => decide (sid ≠ 2)) ∧
    (3 : Nat) ∈ broadcastRun [⟨1, "k", "A"⟩, ⟨2, "k", "B"⟩, ⟨3, "k", "C"⟩]
        (fun sid => decide (sid ≠ 2)) :=
  ⟨(claim8_broadcast_isolation _ _).2 ⟨1, "k", "A"⟩ (by decide) (by decide),
   (claim8_broadcast_isolation _ _).2 ⟨3, "k", "C"⟩ (by decide) (by decide)⟩

/-- C10: opening a channel on a stored but uninitialized record (empty
`key`) performs the full connect path — the session is registered, the user
is appended to `users` if absent, marked connected, the record persisted, a
`userConnectionStatus(true)` broadcast emitted, and the full record sent to
the new channel — whereas `/join` on the same record fails with
`RoomNotFound`. -/
theorem claim10_connect_ignores_uninitialized (sessions : List SessionInfo) (sid : Nat)
    (roomKey userName : String) (r : RoomData) (hk : r.key = "") :
    (handleSession sessions (some r) sid roomKey userName).sessions
        = sessions ++ [⟨sid, roomKey, userName⟩] ∧
    (∃ r3, (handleSession sessions (some r) sid roomKey userName).stored = some r3 ∧
      userName ∈ r3.users ∧
      cuGet ((r3.connectedUsers).getD []) userName = true ∧
      (r3.users = r.users ∨ r3.users = r.users ++ [userName]) ∧
      (handleSession sessions (some r) sid roomKey userName).broadcasts
        = [Broadcast.userConnectionStatus userName true r3] ∧
      (handleSession sessions (some r) sid roomKey userName).firstSent = some r3) ∧
    Ev.storagePut ∈ (handleSession sessions (some r) sid roomKey userName).trace ∧
    (joinRoom (some r) userName).resp = Except.error RoomError.roomNotFound := by
  refine ⟨rfl, ?_, ?_, by simp [joinRoom, hk]⟩
  · by_cases hmem : userName ∈ (reconcile r).users
    · refine ⟨cuSet (reconcile r) userName true, ?_, ?_, ?_, ?_, ?_, ?_⟩
      · simp [handleSession, connectGate, hmem]
      · rw [cuSet_users]; exact hmem
      · exact cuGet_cuSet_self _ _ _
      · left; rw [cuSet_users, reconcile_users]
      · simp [handleSession, connectGate, hmem]
      · simp [handleSession, connectGate, hmem]
    · refine ⟨cuSet { reconcile r with users := (reconcile r).users ++ [userName] }
        userName true, ?_, ?_, ?_, ?_, ?_, ?_⟩
      · simp [handleSession, connectGate, hmem]
      · rw [cuSet_users]; simp
      · exact cuGet_cuSet_self _ _ _
      · right; rw [cuSet_users]; simp [reconcile_users]
      · simp [handleSession, connectGate, hmem]
      · simp [handleSession, connectGate, hmem]
  · by_cases hmem : userName ∈ (reconcile r).users <;>
      simp [handleSession, connectGate, hmem]

/-- C4 counterexample: on an initialized room, `/join` emits its
`userJoined` broadcast before the Mutation Gate releases, refuting the
claim that broadcasts are emitted only after the gate section has fully
released. -/
theorem claim4_counterexample :
    Ev.emit ∈ (joinRoom (some (RoomData.mk "k" ["A"] "A" (some [("A", true)]) [])) "B").trace ∧
    emitOnlyAfterRelease
        ((joinRoom (some (RoomData.mk "k" ["A"] "A" (some [("A", true)]) [])) "B").trace)
      = false := by
  decide

/-- C4 amended: for Join, Connect, Disconnect and UpdateSettings (both
paths), every broadcast emission happens inside the Mutation Gate's
critical section — between acquisition and release — not after release. -/
theorem claim4_broadcasts_inside_gate (stored : Option RoomData)
    (sessions : List SessionInfo) (sid : Nat) (roomKey name : String) (p : SettingsMap) :
    emitsInsideGate ((joinRoom stored name).trace) = true ∧
    emitsInsideGate ((handleSession sessions stored sid roomKey name).trace) = true ∧
    emitsInsideGate ((handleClose sessions stored sid name).trace) = true ∧
    emitsInsideGate ((handleUpdateSettings stored name p).trace) = true ∧
    emitsInsideGate ((settingsPut stored name p).trace) = true := by
  refine ⟨?_, ?_, ?_, ?_, ?_⟩
  · simp only [joinRoom]
    repeat' split
    all_goals rfl
  · cases stored with
    | none => rfl
    | some r => rfl
  · simp only [handleClose, closeGate]
    repeat' split
    all_goals rfl
  · simp only [handleUpdateSettings]
    repeat' split
    all_goals rfl
  · simp only [settingsPut]
    repeat' split
    all_goals rfl

/-- C7 counterexample: a record whose `connectedUsers` map is present but
missing an entry for user "B" (who is in `users`) is persisted by `/join`
still missing that entry — the partially missing entry is not backfilled
to `false` before the record is used or persisted. -/
theorem claim7_counterexample :
    ((joinRoom (some (RoomData.mk "k" ["A", "B"] "A" (some [("A", true)]) [])) "C").stored.map
        (fun m => lookupVal ((m.connectedUsers).getD []) "B"))
      = some none ∧
    Ev.storagePut
      ∈ (joinRoom (some (RoomData.mk "k" ["A", "B"] "A" (some [("A", true)]) [])) "C").trace := by
  decide

/-- C7 amended: the reconciliation step (shared by join, connect,
disconnect and instance activation) backfills only when `connectedUsers`
is missing entirely: in that case every name in `users` is set to `false`;
when the map is present it is left untouched even if entries are missing,
and a missing entry merely reads as disconnected (falsy lookup). -/
theorem claim7_backfill_only_when_map_missing (r : RoomData) (u : String)
    (m : List (String × Bool)) :
    (r.connectedUsers = none → u ∈ r.users →
      lookupVal (((reconcile r).connectedUsers).getD []) u = some false) ∧
    (r.connectedUsers = some m → reconcile r = r) ∧
    (lookupVal m u = none → cuGet m u = false) ∧
    activateRoom (some r) = reconcile r := by
  refine ⟨?_, ?_, ?_, rfl⟩
  · intro hn hu
    simp [reconcile, hn, lookupVal_backfill r.users u hu]
  · intro hs
    simp [reconcile, hs]
  · intro hl
    simp [cuGet, hl]

/-- Witness for the amended C7: a map-less record is fully backfilled; a
present map is left untouched by reconciliation. -/
theorem claim7_backfill_only_when_map_missing_witness :
    lookupVal (((reconcile (RoomData.mk "k" ["A", "B"] "A" none [])).connectedUsers).getD [])
        "B" = some false ∧
    reconcile (RoomData.mk "k" ["A", "B"] "A" (some [("A", true)]) [])
      = RoomData.mk "k" ["A", "B"] "A" (some [("A", true)]) [] :=
  ⟨(claim7_backfill_only_when_map_missing (RoomData.mk "k" ["A", "B"] "A" none []) "B"
      []).1 rfl (by decide),
   (claim7_backfill_only_when_map_missing
      (RoomData.mk "k" ["A", "B"] "A" (some [("A", true)]) []) "B"
      [("A", true)]).2.1 rfl⟩

/-- C3: a moderator-driven settings update, on either path, replaces
`settings` with the shallow merge of the current settings and the partial
update: every key of the update takes the update's value, every other key
keeps its prior value. -/
theorem claim3_settings_merge (r : RoomData) (p : SettingsMap) (k : String)
    (hnd : (p.map Prod.fst).Nodup) :
    (∀ v, lookupVal p k = some v →
      lookupVal (settingsOf (handleUpdateSettings (some r) r.moderator p).stored) k
          = some v ∧
      (r.key ≠ "" →
        lookupVal (settingsOf (settingsPut (some r) r.moderator p).stored) k = some v)) ∧
    (lookupVal p k = none →
      lookupVal (settingsOf (handleUpdateSettings (some r) r.moderator p).stored) k
          = lookupVal r.settings k ∧
      (r.key ≠ "" →
        lookupVal (settingsOf (settingsPut (some r) r.moderator p).stored) k
          = lookupVal r.settings k)) := by
  have hchan : settingsOf (handleUpdateSettings (some r) r.moderator p).stored
      = mergeSettings r.settings p := by
    simp [handleUpdateSettings, settingsOf]
  have hreq : r.key ≠ "" →
      settingsOf (settingsPut (some r) r.moderator p).stored = mergeSettings r.settings p := by
    intro hk
    simp [settingsPut, settingsOf, hk]
  constructor
  · intro v hv
    rw [hchan]
    exact ⟨lookupVal_mergeSettings_of_some r.settings p k v hnd hv,
      fun hk => by rw [hreq hk]; exact lookupVal_mergeSettings_of_some r.settings p k v hnd hv⟩
  · intro hv
    rw [hchan]
    exact ⟨lookupVal_mergeSettings_of_none r.settings p k hv,
      fun hk => by rw [hreq hk]; exact lookupVal_mergeSettings_of_none r.settings p k hv⟩

/-- Witness for C3: the spec's example — merging `[("y", 2)]` into
`[("x", 1)]` keeps `x = 1`, yields `[("x", 1), ("y", 2)]`, and a further
update `[("x", 3)]` yields `[("x", 3), ("y", 2)]`. -/
theorem claim3_settings_merge_witness :
    lookupVal (settingsOf (handleUpdateSettings
        (some (RoomData.mk "k" ["A"] "A" (some [("A", true)]) [("x", 1)]))
        "A" [("y", 2)]).stored) "x"
      = some 1 ∧
    settingsOf (handleUpdateSettings
        (some (RoomData.mk "k" ["A"] "A" (some [("A", true)]) [("x", 1)]))
        "A" [("y", 2)]).stored
      = [("x", 1), ("y", 2)] ∧
    settingsOf (handleUpdateSettings
        (some (RoomData.mk "k" ["A"] "A" (some [("A", true)]) [("x", 1), ("y", 2)]))
        "A" [("x", 3)]).stored
      = [("x", 3), ("y", 2)] :=
  ⟨((claim3_settings_merge (RoomData.mk "k" ["A"] "A" (some [("A", true)]) [("x", 1)])
      [("y", 2)] "x" (by decide)).2 (by decide)).1.trans (by decide),
   by decide, by decide⟩

/-- C5: multi-session disconnect suppression. Closing one of a user's
channels while another of their sessions remains removes only that session,
mutates no room state and emits nothing; closing the user's last session
marks them disconnected in `connectedUsers`, persists the record, and the
broadcasts contain exactly one `userConnectionStatus` message, which has
`isConnected = false`. -/
theorem claim5_multisession_disconnect (sessions : List SessionInfo)
    (stored : Option RoomData) (s1 s2 : Nat) (k2 U : String)
    (h2 : (⟨s2, k2, U⟩ : SessionInfo) ∈ sessions) (hne : s2 ≠ s1) :
    ((handleClose sessions stored s1 U).stored = stored ∧
     (handleClose sessions stored s1 U).broadcasts = [] ∧
     Ev.storagePut ∉ (handleClose sessions stored s1 U).trace ∧
     (⟨s2, k2, U⟩ : SessionInfo) ∈ (handleClose sessions stored s1 U).sessions) ∧
    (∀ (sessions2 : List SessionInfo) (r : RoomData),
      stillConnected (removeSession sessions2 s2) U = false →
      ∃ m rd, (handleClose sessions2 (some r) s2 U).stored = some m ∧
        lookupVal ((m.connectedUsers).getD []) U = some false ∧
        Ev.storagePut ∈ (handleClose sessions2 (some r) s2 U).trace ∧
        (handleClose sessions2 (some r) s2 U).broadcasts.filter isUCS
          = [Broadcast.userConnectionStatus U false rd]) := by
  constructor
  · have hmem : (⟨s2, k2, U⟩ : SessionInfo) ∈ removeSession sessions s1 :=
      (mem_removeSession sessions s1 _).mpr ⟨h2, hne⟩
    have hsc : stillConnected (removeSession sessions s1) U = true :=
      stillConnected_of_mem _ _ _ hmem rfl
    refine ⟨?_, ?_, ?_, ?_⟩
    · simp [handleClose, hsc]
    · simp [handleClose, hsc]
    · simp [handleClose, hsc]
    · simp only [handleClose, if_pos hsc]
      exact hmem
  · intro sessions2 r hsc2
    obtain ⟨m, hm1, hm2, _, hm4, hm5⟩ := closeGate_char r U
    have hexp : handleClose sessions2 (some r) s2 U
        = { sessions := removeSession sessions2 s2,
            stored := (closeGate (some r) U).1,
            broadcasts := (closeGate (some r) U).2.1,
            trace := [Ev.registryRemove] ++ (closeGate (some r) U).2.2 } := by
      simp [handleClose, hsc2]
    refine ⟨m, cuSet (reconcile r) U false, ?_, ?_, ?_, ?_⟩
    · rw [hexp]
      exact hm1
    · rw [hm2]
      exact lookupVal_cuSet_self _ _ _
    · rw [hexp]
      exact List.mem_append_right _ hm5
    · rw [hexp]
      exact hm4

/-- Witness for C5: user "U" holds sessions 1 and 2; closing session 1
changes nothing; closing session 2 afterwards disconnects "U". -/
theorem claim5_multisession_disconnect_witness :
    (handleClose [⟨1, "k", "U"⟩, ⟨2, "k", "U"⟩]
        (some (RoomData.mk "k" ["U"] "U" (some [("U", true)]) [])) 1 "U").stored
      = some (RoomData.mk "k" ["U"] "U" (some [("U", true)]) []) ∧
    (∃ m rd, (handleClose [⟨2, "k", "U"⟩]
        (some (RoomData.mk "k" ["U"] "U" (some [("U", true)]) [])) 2 "U").stored = some m ∧
      lookupVal ((m.connectedUsers).getD []) "U" = some false ∧
      Ev.storagePut ∈ (handleClose [⟨2, "k", "U"⟩]
        (some (RoomData.mk "k" ["U"] "U" (some [("U", true)]) [])) 2 "U").trace ∧
      (handleClose [⟨2, "k", "U"⟩]
          (some (RoomData.mk "k" ["U"] "U" (some [("U", true)]) [])) 2 "U").broadcasts.filter
          isUCS
        = [Broadcast.userConnectionStatus "U" false rd]) :=
  ⟨(claim5_multisession_disconnect [⟨1, "k", "U"⟩, ⟨2, "k", "U"⟩]
      (some (RoomData.mk "k" ["U"] "U" (some [("U", true)]) [])) 1 2 "k" "U"
      (by decide) (by decide)).1.1,
   (claim5_multisession_disconnect [⟨1, "k", "U"⟩, ⟨2, "k", "U"⟩]
      (some (RoomData.mk "k" ["U"] "U" (some [("U", true)]) [])) 1 2 "k" "U"
      (by decide) (by decide)).2 [⟨2, "k", "U"⟩]
      (RoomData.mk "k" ["U"] "U" (some [("U", true)]) []) (by decide)⟩

/-- C1: moderator failover. When the last registered session of the
current moderator closes, and after marking them disconnected some user in
`users` order is still connected, the moderator becomes the first such
user (`find?` = earliest joiner among those still connected), the record
is persisted a second time and a `newModerator` broadcast is emitted; when
no connected candidate exists the moderator field is left unchanged
(pointing at the now-disconnected user) and no `newModerator` broadcast is
emitted. -/
theorem claim1_moderator_failover (sessions : List SessionInfo) (sid : Nat)
    (r : RoomData) (U : String)
    (hsc : stillConnected (removeSession sessions sid) U = false)
    (hmod : U = r.moderator) :
    (∀ c, (cuSet (reconcile r) U false).users.find?
        (fun u => cuGet (((cuSet (reconcile r) U false).connectedUsers).getD []) u)
          = some c →
      (handleClose sessions (some r) sid U).stored
          = some (withModerator (cuSet (reconcile r) U false) c) ∧
      Broadcast.newModerator c (withModerator (cuSet (reconcile r) U false) c)
          ∈ (handleClose sessions (some r) sid U).broadcasts ∧
      (handleClose sessions (some r) sid U).trace.count Ev.storagePut = 2) ∧
    ((cuSet (reconcile r) U false).users.find?
        (fun u => cuGet (((cuSet (reconcile r) U false).connectedUsers).getD []) u)
          = none →
      (handleClose sessions (some r) sid U).stored = some (cuSet (reconcile r) U false) ∧
      (cuSet (reconcile r) U false).moderator = r.moderator ∧
      ∀ c rd, Broadcast.newModerator c rd ∉ (handleClose sessions (some r) sid U).broadcasts) := by
  have hmod2 : U = (cuSet (reconcile r) U false).moderator := by
    rw [cuSet_moderator, reconcile_moderator]
    exact hmod
  have hexp : handleClose sessions (some r) sid U
      = { sessions := removeSession sessions sid,
          stored := (closeGate (some r) U).1,
          broadcasts := (closeGate (some r) U).2.1,
          trace := [Ev.registryRemove] ++ (closeGate (some r) U).2.2 } := by
    simp [handleClose, hsc]
  have hfind := find?_eq_filterHead
    ((cuSet (reconcile r) U false).users)
    (fun u => cuGet (((cuSet (reconcile r) U false).connectedUsers).getD []) u)
  constructor
  · intro c hc
    rw [hfind] at hc
    cases hf : (cuSet (reconcile r) U false).users.filter
        (fun u => cuGet (((cuSet (reconcile r) U false).connectedUsers).getD []) u) with
    | nil =>
      rw [hf] at hc
      exact Option.noConfusion hc
    | cons c' t =>
      rw [hf] at hc
      have hcc : c' = c := by simpa using hc
      subst hcc
      have hgate : closeGate (some r) U
          = (some (withModerator (cuSet (reconcile r) U false) c'),
             [Broadcast.userConnectionStatus U false (cuSet (reconcile r) U false),
              Broadcast.newModerator c' (withModerator (cuSet (reconcile r) U false) c')],
             [Ev.gateEnter, Ev.storageGet, Ev.storagePut, Ev.emit,
              Ev.storagePut, Ev.emit, Ev.gateExit]) := by
        simp only [closeGate]
        rw [if_pos hmod2, hf]
        rfl
      rw [hexp, hgate]
      refine ⟨rfl, ?_, ?_⟩
      · exact List.mem_cons_of_mem _ (List.mem_singleton.mpr rfl)
      · show List.count Ev.storagePut
            ([Ev.registryRemove] ++ [Ev.gateEnter, Ev.storageGet, Ev.storagePut, Ev.emit,
              Ev.storagePut, Ev.emit, Ev.gateExit]) = 2
        decide
  · intro hnone
    rw [hfind] at hnone
    cases hf : (cuSet (reconcile r) U false).users.filter
        (fun u => cuGet (((cuSet (reconcile r) U false).connectedUsers).getD []) u) with
    | cons c' t =>
      rw [hf] at hnone
      exact Option.noConfusion hnone
    | nil =>
      have hgate : closeGate (some r) U
          = (some (cuSet (reconcile r) U false),
             [Broadcast.userConnectionStatus U false (cuSet (reconcile r) U false)],
             [Ev.gateEnter, Ev.storageGet, Ev.storagePut, Ev.emit, Ev.gateExit]) := by
        simp only [closeGate]
        rw [if_pos hmod2, hf]
      rw [hexp, hgate]
      refine ⟨rfl, ?_, ?_⟩
      · rw [cuSet_moderator, reconcile_moderator]
      · intro c rd hmem
        rw [List.mem_singleton] at hmem
        exact Broadcast.noConfusion hmem

/-- Witness for C1: users A, B, C all connected, moderator A; closing A's
only session promotes B (the earliest still-connected joiner). -/
theorem claim1_moderator_failover_witness :
    (handleClose [⟨1, "k", "A"⟩]
        (some (RoomData.mk "k" ["A", "B", "C"] "A"
          (some [("A", true), ("B", true), ("C", true)]) [])) 1 "A").stored
      = some (withModerator
          (cuSet (reconcile (RoomData.mk "k" ["A", "B", "C"] "A"
            (some [("A", true), ("B", true), ("C", true)]) [])) "A" false) "B") ∧
    ((handleClose [⟨1, "k", "A"⟩]
        (some (RoomData.mk "k" ["A", "B", "C"] "A"
          (some [("A", true), ("B", true), ("C", true)]) [])) 1 "A").stored.map
        RoomData.moderator)
      = some "B" :=
  ⟨((claim1_moderator_failover [⟨1, "k", "A"⟩] 1
      (RoomData.mk "k" ["A", "B", "C"] "A"
        (some [("A", true), ("B", true), ("C", true)]) []) "A"
      (by decide) rfl).1 "B" (by decide)).1,
   by decide⟩

/-- C9: `users` is append-only across every operation on a stored record:
join and connect append the name at the end exactly when it is absent and
otherwise leave the list unchanged; disconnect, both settings-update paths
and the settings read never change `users` (disconnect only flips the
`connectedUsers` flag). -/
theorem claim9_users_append_only (r : RoomData) (n rk : String) (sid : Nat)
    (sessions : List SessionInfo) (p : SettingsMap) :
    (n ∈ r.users → usersOf (joinRoom (some r) n).stored = r.users) ∧
    (n ∉ r.users → r.key ≠ "" →
      usersOf (joinRoom (some r) n).stored = r.users ++ [n]) ∧
    (n ∈ r.users → usersOf (handleSession sessions (some r) sid rk n).stored = r.users) ∧
    (n ∉ r.users →
      usersOf (handleSession sessions (some r) sid rk n).stored = r.users ++ [n]) ∧
    usersOf (handleClose sessions (some r) sid n).stored = r.users ∧
    usersOf (handleUpdateSettings (some r) n p).stored = r.users ∧
    usersOf (settingsPut (some r) n p).stored = r.users ∧
    usersOf (settingsGet (some r)).stored = r.users := by
  have hru : (reconcile r).users = r.users := reconcile_users r
  refine ⟨?_, ?_, ?_, ?_, ?_, ?_, ?_, ?_⟩
  · intro hn
    by_cases hk : r.key = ""
    · simp [joinRoom, hk, usersOf]
    · have hn1 : n ∈ (reconcile r).users := by rw [hru]; exact hn
      simp [joinRoom, hk, hn, hn1, usersOf, cuSet, hru]
  · intro hn hk
    have hn1 : n ∉ (reconcile r).users := by rw [hru]; exact hn
    simp [joinRoom, hk, hn, hn1, usersOf, cuSet, hru]
  · intro hn
    have hn1 : n ∈ (reconcile r).users := by rw [hru]; exact hn
    simp [handleSession, connectGate, hn, hn1, usersOf, cuSet, hru]
  · intro hn
    have hn1 : n ∉ (reconcile r).users := by rw [hru]; exact hn
    simp [handleSession, connectGate, hn, hn1, usersOf, cuSet, hru]
  · by_cases hsc : stillConnected (removeSession sessions sid) n = true
    · simp [handleClose, hsc, usersOf]
    · obtain ⟨m, hm1, _, hm3, _, _⟩ := closeGate_char r n
      have hst : (handleClose sessions (some r) sid n).stored = (closeGate (some r) n).1 := by
        simp [handleClose, hsc]
      rw [hst, hm1]
      simpa [usersOf] using hm3
  · by_cases hm : r.moderator ≠ n
    · simp [handleUpdateSettings, hm, usersOf]
    · simp [handleUpdateSettings, hm, usersOf]
  · by_cases hk : r.key = ""
    · simp [settingsPut, hk, usersOf]
    · by_cases hm : r.moderator ≠ n
      · simp [settingsPut, hk, hm, usersOf]
      · simp [settingsPut, hk, hm, usersOf]
  · by_cases hk : r.key = ""
    · simp [settingsGet, hk, usersOf]
    · simp [settingsGet, hk, usersOf]

/-- Witness for C9: joining a new user appends at the end; a disconnect
leaves `users` unchanged. -/
theorem claim9_users_append_only_witness :
    usersOf (joinRoom (some (RoomData.mk "k" ["A"] "A" (some [("A", true)]) [])) "D").stored
      = ["A"] ++ ["D"] ∧
    usersOf (handleClose []
        (some (RoomData.mk "k" ["A"] "A" (some [("A", true)]) [])) 0 "A").stored
      = ["A"] :=
  ⟨(claim9_users_append_only (RoomData.mk "k" ["A"] "A" (some [("A", true)]) [])
      "D" "k" 0 [] []).2.1 (by decide) (by decide),
   (claim9_users_append_only (RoomData.mk "k" ["A"] "A" (some [("A", true)]) [])
      "A" "k" 0 [] []).2.2.2.2.1⟩

/-- Witness for C10: an uninitialized record (empty key, empty users). -/
theorem claim10_connect_ignores_uninitialized_witness :
    (handleSession [] (some (RoomData.mk "" [] "" (some []) [])) 7 "k" "A").sessions
      = [⟨7, "k", "A"⟩] ∧
    (joinRoom (some (RoomData.mk "" [] "" (some []) [])) "A").resp
      = Except.error RoomError.roomNotFound :=
  ⟨(claim10_connect_ignores_uninitialized [] 7 "k" "A" _ (by decide)).1,
   (claim10_connect_ignores_uninitialized [] 7 "k" "A" _ (by decide)).2.2.2⟩

end Room
